import Mathlib

/-!
Verification of the uamqp client engine (client facade, CBS authentication,
management operations) against its natural-language specification.

The Python sources are shallowly embedded: mutable object state becomes
explicit state passing, the C transport layer and the wall clock become
explicit environment parameters (functions from tick index to delivered
events and clock readings), and exceptions become explicit outcome
constructors. Unbounded while-loops are embedded with a fuel parameter.
-/

set_option maxHeartbeats 1000000

namespace Uamqp

/-! ## CBS authentication (uamqp/authentication.py)

CBSAuthMixin.handle_token polls the status of the C-level CBS token
authenticator and dispatches on it.  The polled status and the retry
bookkeeping live on the authenticator object; we embed the Python-visible
fields (retry counter, retry policy, whether refresh credentials exist)
as AuthState and the polled status as an explicit argument.
-/

/-- Modelled from the spec: the CBS authenticator status vocabulary
(constants.CBSAuthStatus, whose defining module is not among the provided
sources).  Section 3 of the spec lists the statuses
Idle, InProgress, Ok, RefreshRequired, Expired, Timeout, Failure, Error. -/
inductive CBSAuthStatus
  | Ok
  | Idle
  | InProgress
  | Timeout
  | RefreshRequired
  | Expired
  | Error
  | Failure
  deriving DecidableEq, Repr

/-- Exceptions that handle_token can raise (uamqp.errors). -/
inductive AuthError
  | TokenAuthFailure
  | TokenExpired
  | AuthenticationException
  deriving DecidableEq, Repr

/-- The Python-visible mutable state of a CBS authenticator:
the retry counter (self.retries), the retry policy bound at construction
(self._retry_policy.retries), and whether update_token has credentials to
work with (SASTokenAuth.update_token raises TokenExpired when
self.username or self.password is missing). -/
structure AuthState where
  retries : Nat
  policyRetries : Nat
  hasCredentials : Bool
  deriving DecidableEq, Repr

/-- Outcome of one handle_token call: either a normal return carrying the
updated authenticator state and the (timed_out, in_progress) pair, or a
raised exception (state unchanged: no branch both raises and mutates). -/
inductive AuthOutcome
  | ok (s : AuthState) (timedOut : Bool) (inProgress : Bool)
  | raises (e : AuthError)
  deriving DecidableEq, Repr

/-- CBSAuthMixin.handle_token (authentication.py lines 200-255), branch for
branch.  Notable: the Failure branch of the source constructs
errors.AuthenticationException but has no raise statement, so the
exception value is discarded and the call returns (False, False). -/
def handle_token (s : AuthState) (status : CBSAuthStatus) : AuthOutcome :=
  match status with
  | .Error =>
    if s.policyRetries ≤ s.retries then
      .raises .TokenAuthFailure
    else
      .ok { s with retries := s.retries + 1 } false true
  | .Failure =>
    .ok s false false
  | .Expired =>
    .raises .TokenExpired
  | .Timeout =>
    .ok s true false
  | .InProgress =>
    .ok s false true
  | .RefreshRequired =>
    if s.hasCredentials then .ok s false false
    else .raises .TokenExpired
  | .Idle =>
    .ok s false true
  | .Ok =>
    .ok s false false

/-- SASTokenAuth constructor (authentication.py line 337): the retry
counter starts at zero; policy and credentials are bound at construction. -/
def SASTokenAuth_init (policyRetries : Nat) (hasCredentials : Bool) : AuthState :=
  { retries := 0, policyRetries := policyRetries, hasCredentials := hasCredentials }

/-- Authenticator state after a handle_token call: the updated state on a
normal return, the unchanged state when the call raised. -/
def authStateAfter (s : AuthState) (status : CBSAuthStatus) : AuthState :=
  match handle_token s status with
  | .ok s1 _ _ => s1
  | .raises _ => s

/-- Authenticator state after a sequence of handle_token calls observing
the given sequence of polled statuses. -/
def authStateAfterSeq (s : AuthState) : List CBSAuthStatus → AuthState
  | [] => s
  | status :: rest => authStateAfterSeq (authStateAfter s status) rest

/-- Authenticator state after k consecutive handle_token calls that each
observe Error status (raising calls leave the state unchanged). -/
def stateAfterErrors (s : AuthState) : Nat → AuthState
  | 0 => s
  | k + 1 => authStateAfter (stateAfterErrors s k) .Error

/-! ## MgmtOperation.execute (uamqp/mgmt_operation.py lines 91-134 and the
identical async variant)

The pending-response dictionary self._responses maps operation ids to an
optional response message (None until on_complete fires).  Operation ids
are uuid strings in the source; we embed them as Nat.  Response messages
are opaque to the claim and also embedded as Nat.  The connection, the
management links and the wall clock are an environment: respond i is the
response delivered by on_complete during the i-th connection.work call of
this execute, errAt i tells whether the link-error callback fires during
that call, and time i is the counter reading taken in loop iteration i. -/

/-- The pending-response map self._responses, embedded as an association
list from operation id to optional response message. -/
abbrev RespMap := List (Nat × Option Nat)

/-- Dictionary lookup: self._responses[k]. -/
def mapLookup (k : Nat) : RespMap → Option (Option Nat)
  | [] => none
  | (k1, v) :: rest => if k1 = k then some v else mapLookup k rest

/-- Dictionary assignment to an existing key, as performed by on_complete
(the key was inserted at the start of execute and cannot have been popped
while the wait loop is still running). -/
def mapSet (k : Nat) (v : Option Nat) : RespMap → RespMap
  | [] => []
  | (k1, v1) :: rest =>
    if k1 = k then (k1, v) :: rest else (k1, v1) :: mapSet k v rest

/-- Dictionary pop: self._responses.pop(k). -/
def mapPop (k : Nat) : RespMap → RespMap
  | [] => []
  | (k1, v1) :: rest => if k1 = k then rest else (k1, v1) :: mapPop k rest

/-- Environment of one MgmtOperation.execute call. -/
structure MgmtEnv where
  respond : Nat → Option Nat
  errAt : Nat → Bool
  time : Nat → Nat
  startTime : Nat

/-- Outcome of MgmtOperation.execute, carrying the final contents of the
pending-response map so that leak/cleanup properties can be stated. -/
inductive ExecOutcome
  | ok (resp : Nat) (final : RespMap)
  | timeoutRaised (final : RespMap)
  | mgmtErrRaised (final : RespMap)
  | noFuel
  deriving DecidableEq, Repr

/-- The wait loop of MgmtOperation.execute: while the placeholder for
opId is unfilled and no link error is recorded, check the deadline
(raising TimeoutError when timeout > 0 and at least timeout ms elapsed
since start_time) and tick the connection.  On exit, a recorded link
error is raised first; otherwise the response is popped and returned. -/
def executeLoop (env : MgmtEnv) (timeout startTime opId : Nat) :
    Nat → Nat → RespMap → Bool → ExecOutcome
  | 0, _, _, _ => .noFuel
  | fuel + 1, i, rs, err =>
    if err then .mgmtErrRaised rs
    else
      match (mapLookup opId rs).getD none with
      | some r => .ok r (mapPop opId rs)
      | none =>
        if 0 < timeout ∧ timeout ≤ env.time i - startTime then
          .timeoutRaised rs
        else
          let rs1 :=
            match env.respond i with
            | some m => mapSet opId (some m) rs
            | none => rs
          executeLoop env timeout startTime opId fuel (i + 1) rs1 (err || env.errAt i)

/-- MgmtOperation.execute: record start_time, generate the fresh
operation id, store a None placeholder for it, submit the request, then
run the wait loop.  initMap is the content of self._responses at call
time and initErr the value of self.mgmt_error. -/
def mgmtExecute (env : MgmtEnv) (initMap : RespMap) (initErr : Bool)
    (opId timeout fuel : Nat) : ExecOutcome :=
  executeLoop env timeout env.startTime opId fuel 0 ((opId, none) :: initMap) initErr

/-- An environment whose management link never completes the request:
no response, no link error, one millisecond of clock advance per loop
iteration. -/
def mgmtSilentEnv : MgmtEnv :=
  { respond := fun _ => none
    errAt := fun _ => false
    time := fun i => i
    startTime := 0 }

/-- An environment that delivers response message 42 during the first
connection tick. -/
def mgmtPromptEnv : MgmtEnv :=
  { respond := fun i => if i = 0 then some 42 else none
    errAt := fun _ => false
    time := fun i => i
    startTime := 0 }

/-! ## SendClient (uamqp/client.py lines 283-512)

Messages are mutable objects shared between the pending list and the
caller; we embed the message objects as a store (a list indexed by
message id) and the pending list self._pending_messages as a list of ids
into that store.  The message-sender link and the service acks are an
environment: ack t id is the send result the transport delivers for
message id during the connection.work call of tick t, and time t is the
TickCounter reading during tick t (the counter readings taken for the
individual messages within one tick are embedded as a single reading). -/

/-- Modelled from the spec: the client-local message state vocabulary
(constants.MessageState, whose defining module is not among the provided
sources).  Section 3 of the spec gives state in
WaitingToBeSent, WaitingForAck, Complete, Failed, with Complete and
Failed terminal (constants.DONE_STATES). -/
inductive MessageState
  | WaitingToBeSent
  | WaitingForAck
  | Complete
  | Failed
  deriving DecidableEq, Repr, Inhabited

/-- Modelled from the spec: the send-result vocabulary
(constants.MessageSendResult, defining module not among the provided
sources): Ok for a confirmed send, Timeout for an expired message,
Error for a transport failure. -/
inductive MessageSendResult
  | Ok
  | Timeout
  | Error
  deriving DecidableEq, Repr

/-- Modelled from the spec: Message._on_message_sent (message.py is not
among the provided sources).  Per spec sections 3 and 4.4 it records the
send result on the message state: an Ok result makes the message
Complete, a Timeout or Error result makes it Failed. -/
def on_message_sent (result : MessageSendResult) : MessageState :=
  match result with
  | .Ok => .Complete
  | .Timeout => .Failed
  | .Error => .Failed

/-- A sender-side message object: its client-local state and the
idle_time timestamp stamped when it was queued. -/
structure SendMsg where
  state : MessageState
  idleTime : Nat
  deriving DecidableEq, Repr, Inhabited

/-- What SendClient._client_run does with one pending message. -/
inductive SendAction
  | remove
  | keep
  | send (timeout : ℚ)
  | failTimeout
  deriving DecidableEq, Repr

/-- The per-message body of the SendClient._client_run loop (client.py
lines 395-412): terminal messages are pruned; a WaitingToBeSent message
is set to WaitingForAck and then either expired directly to Failed via
_on_message_sent(Timeout) when msg_timeout > 0 and more than msg_timeout
seconds elapsed since it was queued, or handed to
MessageSender.send_async with the remaining budget (msg_timeout minus
the elapsed seconds, or 0 when msg_timeout is 0); other messages are
left alone.  Clock values are in milliseconds, elapsed_time is the
millisecond difference divided by 1000. -/
def clientRunStep (msgTimeout : ℚ) (currentTime : Nat) (m : SendMsg) :
    SendMsg × SendAction :=
  if m.state = .Complete ∨ m.state = .Failed then
    (m, .remove)
  else if m.state = .WaitingToBeSent then
    let m1 : SendMsg := { m with state := .WaitingForAck }
    let elapsed : ℚ := ((currentTime - m.idleTime : Nat) : ℚ) / 1000
    if 0 < msgTimeout ∧ msgTimeout < elapsed then
      ({ m1 with state := on_message_sent .Timeout }, .failTimeout)
    else
      (m1, .send (if 0 < msgTimeout then msgTimeout - elapsed else 0))
  else
    (m, .keep)

/-- The SendClient._client_run walk over the pending list: returns the
surviving pending ids and the updated message store. -/
def runPending (msgTimeout : ℚ) (now : Nat) :
    List Nat → List SendMsg → List Nat × List SendMsg
  | [], store => ([], store)
  | id :: rest, store =>
    match store.get? id with
    | none =>
      let r := runPending msgTimeout now rest store
      (id :: r.1, r.2)
    | some m =>
      if m.state = .Complete ∨ m.state = .Failed then
        runPending msgTimeout now rest store
      else if m.state = .WaitingToBeSent then
        let r := runPending msgTimeout now rest
          (store.set id (clientRunStep msgTimeout now m).1)
        (id :: r.1, r.2)
      else
        let r := runPending msgTimeout now rest store
        (id :: r.1, r.2)

/-- Delivery of transport acks during connection.work: each in-flight
(WaitingForAck) message whose ack arrives this tick has
_on_message_sent applied with the delivered result. -/
def applyAcksFrom (ack : Nat → Option MessageSendResult) :
    Nat → List SendMsg → List SendMsg
  | _, [] => []
  | i, m :: rest =>
    let m1 :=
      if m.state = .WaitingForAck then
        match ack i with
        | some r => { m with state := on_message_sent r }
        | none => m
      else m
    m1 :: applyAcksFrom ack (i + 1) rest

/-- Environment of a send loop: per-tick ack delivery and clock. -/
structure SendEnv where
  ack : Nat → Nat → Option MessageSendResult
  time : Nat → Nat

/-- One SendClient.do_work tick with the link ready: the _client_run walk
over the pending list followed by the connection.work transport pass. -/
def sendDoWork (env : SendEnv) (msgTimeout : ℚ) (t : Nat)
    (pending : List Nat) (store : List SendMsg) : List Nat × List SendMsg :=
  let r := runPending msgTimeout (env.time t) pending store
  (r.1, applyAcksFrom (env.ack t) 0 r.2)

/-- SendClient.wait: tick do_work until no message is pending.  Returns
the final message store, or none when the fuel runs out first. -/
def sendWait (env : SendEnv) (msgTimeout : ℚ) :
    Nat → Nat → List Nat → List SendMsg → Option (List SendMsg)
  | 0, _, pending, store => if pending = [] then some store else none
  | fuel + 1, t, pending, store =>
    if pending = [] then some store
    else
      let r := sendDoWork env msgTimeout t pending store
      sendWait env msgTimeout fuel (t + 1) r.1 r.2

/-- SendClient.send_all_messages (client.py lines 490-512): snapshot the
pending list, run wait(), then read each snapshot message's final state.
The close_on_done close happens after the result list is computed and
does not affect it. -/
def send_all_messages (env : SendEnv) (msgTimeout : ℚ) (fuel : Nat)
    (pending : List Nat) (store : List SendMsg) : Option (List MessageState) :=
  match sendWait env msgTimeout fuel 0 pending store with
  | none => none
  | some finalStore =>
    some (pending.map (fun id => ((finalStore.get? id).getD default).state))

/-- A sequence of SendClient.queue_message calls starting from an empty
client: each queued message enters the store in WaitingToBeSent state
with its idle_time stamped from the counter, and its id is appended to
the pending list. -/
def queueMessages (times : List Nat) : List Nat × List SendMsg :=
  (List.range times.length,
   times.map (fun tm => { state := .WaitingToBeSent, idleTime := tm }))

/-- An environment that acks every in-flight message with Ok on every
tick. -/
def promptAckEnv : SendEnv :=
  { ack := fun _ _ => some .Ok
    time := fun t => t }

/-! ## AMQPClient.do_work (uamqp/client.py lines 255-280)

The per-tick gate sequence: poll handle_token when the connection has a
CBS authenticator, then check the shutdown flag, then escalate an auth
timeout, then keep driving the connection while auth is in progress or
the client is not ready, else run the role-specific step.  The claim
concerns the path where handle_token returned normally, so the embedding
takes its returned pair as input. -/

/-- Input of one do_work call: the client flags and the pair returned by
handle_token in this same call (meaningful when hasCbs is set). -/
structure DoWorkInput where
  hasCbs : Bool
  authTimedOut : Bool
  authInProgress : Bool
  shutdown : Bool
  clientReady : Bool
  clientRunResult : Bool
  deriving DecidableEq, Repr

/-- Outcome of do_work: a normal return carrying the returned Bool, the
number of direct connection.work calls made by do_work itself, and
whether the role-specific _client_run step was invoked; or a raised
TimeoutError. -/
inductive DoWorkOutcome
  | ok (result : Bool) (connectionTicks : Nat) (ranClientRun : Bool)
  | timeoutRaised
  deriving DecidableEq, Repr

/-- AMQPClient.do_work (client.py lines 255-280). -/
def do_work (inp : DoWorkInput) : DoWorkOutcome :=
  let timedOut := inp.hasCbs && inp.authTimedOut
  let inProgress := inp.hasCbs && inp.authInProgress
  if inp.shutdown then .ok false 0 false
  else if timedOut then .timeoutRaised
  else if inProgress then .ok true 1 false
  else if !inp.clientReady then .ok true 1 false
  else .ok inp.clientRunResult 0 true

/-! ## ReceiveClient.receive_message_batch (uamqp/client.py lines 677-733)

Messages are opaque to the claims and embedded as Nat.  The environment
supplies, per do_work tick i, the messages the Receiver callback puts on
the internal queue during that tick (msgs i), the Bool do_work returns
(stillOpen i), and the TickCounter reading taken at the top of loop
iteration i (time i); startTime is the reading taken when the deadline is
computed at call start. -/

/-- Environment of one receive_message_batch call. -/
structure RecvEnv where
  msgs : Nat → List Nat
  stillOpen : Nat → Bool
  time : Nat → Nat
  startTime : Nat

/-- The drain loop: while the internal queue is non-empty and the batch
is below max_batch_size, move one message from the queue to the batch. -/
def drainLoop (maxB : Nat) : List Nat → List Nat → List Nat × List Nat
  | batch, [] => (batch, [])
  | batch, m :: rest =>
    if batch.length < maxB then drainLoop maxB (batch ++ [m]) rest
    else (batch, m :: rest)

/-- The inner tick loop of receive_message_batch: while still receiving
and the queue holds fewer than max_batch_size messages, stop with
expired = true when the deadline has passed, otherwise tick do_work once
and stop with expired = true when the tick added no message while the
queue is non-empty (the stall-detection rule).  Returns the queue, the
next tick index (the number of do_work calls made so far), the receiving
flag, and the expired flag; none when the fuel ran out. -/
def recvInnerLoop (env : RecvEnv) (maxB deadline : Nat) :
    Nat → Nat → List Nat → Bool → Option (List Nat × Nat × Bool × Bool)
  | 0, _, _, _ => none
  | fuel + 1, i, q, receiving =>
    if receiving = true ∧ q.length < maxB then
      if 0 < deadline ∧ deadline < env.time i then some (q, i, receiving, true)
      else
        let delivered := env.msgs i
        let rcv := env.stillOpen i
        let q1 := q ++ delivered
        if 0 < q1.length ∧ delivered.length = 0 then some (q1, i + 1, rcv, true)
        else recvInnerLoop env maxB deadline fuel (i + 1) q1 rcv
    else some (q, i, receiving, false)

/-- The outer loop of receive_message_batch: while still receiving, not
expired and the batch is short, run the inner tick loop and then drain
the queue into the batch.  Returns the batch and the number of do_work
ticks performed; none when the fuel ran out. -/
def recvOuterLoop (env : RecvEnv) (maxB deadline : Nat) :
    Nat → Nat → List Nat → List Nat → Bool → Bool → Option (List Nat × Nat)
  | 0, _, _, _, _, _ => none
  | fuel + 1, i, batch, q, receiving, expired =>
    if receiving = true ∧ expired = false ∧ batch.length < maxB then
      match recvInnerLoop env maxB deadline (fuel + 1) i q receiving with
      | none => none
      | some (q1, i1, rcv1, exp1) =>
        let d := drainLoop maxB batch q1
        recvOuterLoop env maxB deadline fuel i1 d.1 d.2 rcv1 exp1
    else some (batch, i)

/-- Result of receive_message_batch: the validation error, or the batch
with the number of do_work ticks performed, or fuel exhaustion. -/
inductive BatchResult
  | valueError
  | batch (msgs : List Nat) (ticks : Nat)
  | noFuel
  deriving DecidableEq, Repr

/-- ReceiveClient.receive_message_batch: a max_batch_size of 0 (falsy in
the source) is replaced by the configured prefetch; a max_batch_size
greater than the prefetch raises ValueError before open() and before any
do_work tick; the deadline is computed exactly once at call start as the
current counter reading plus timeout, with timeout = 0 meaning no
deadline; already-queued messages are drained first and returned without
ticking when they fill the batch, otherwise the outer loop runs. -/
def receive_message_batch (env : RecvEnv) (prefetch : Nat) (queue0 : List Nat)
    (max_batch_size timeout fuel : Nat) : BatchResult :=
  let maxB := if max_batch_size = 0 then prefetch else max_batch_size
  if prefetch < maxB then .valueError
  else
    let deadline := if timeout = 0 then 0 else env.startTime + timeout
    let d0 := drainLoop maxB [] queue0
    if maxB ≤ d0.1.length then .batch d0.1 0
    else
      match recvOuterLoop env maxB deadline fuel 0 d0.1 d0.2 true false with
      | none => .noFuel
      | some r => .batch r.1 r.2

/-- The messages delivered by ticks i, i+1, ..., i+k-1 of an
environment, in arrival order. -/
def deliveredBursts (env : RecvEnv) : Nat → Nat → List Nat
  | _, 0 => []
  | i, k + 1 => env.msgs i ++ deliveredBursts env (i + 1) k

/-- An environment that never delivers a message and whose connection
stays open; the clock advances one millisecond per loop iteration. -/
def silentRecvEnv : RecvEnv :=
  { msgs := fun _ => []
    stillOpen := fun _ => true
    time := fun i => i + 1
    startTime := 0 }

/-- An environment that delivers three messages on the first tick and
nothing afterwards, with the connection staying open. -/
def threeThenStallEnv : RecvEnv :=
  { msgs := fun i => if i = 0 then [1, 2, 3] else []
    stillOpen := fun _ => true
    time := fun i => i + 1
    startTime := 0 }

/-! ## Client close (uamqp/client.py lines 176-200, 416-426, 772-779)

The close methods are embedded as state transformers that additionally
report which destroy operations they perform on the C-level objects. -/

/-- The Python-visible client fields read or written by close():
whether self._session, self._connection.cbs, self._connection,
self._message_sender and self._message_receiver are set, the
self._ext_connection flag, and the fields the subclass closes reset. -/
structure ClientState where
  hasSession : Bool
  cbs : Bool
  extConnection : Bool
  hasConnection : Bool
  messageSender : Bool
  messageReceiver : Bool
  pendingMessages : List Nat
  shutdown : Bool
  lastActivityTimestamp : Option Nat
  wasMessageReceived : Bool
  deriving DecidableEq, Repr

/-- Destroy operations performed on C-level objects during close(). -/
inductive DestroyAction
  | closeAuthenticator
  | destroySession
  | destroyConnection
  | destroySender
  | destroyReceiver
  deriving DecidableEq, Repr

/-- AMQPClient.close (client.py lines 176-200): a client whose session
reference is None returns immediately; otherwise the CBS authenticator is
closed (when owned and not external), or the plain session destroyed, the
session reference cleared, and the connection destroyed unless it is
external. -/
def amqpClose (s : ClientState) : ClientState × List DestroyAction :=
  if s.hasSession = false then (s, [])
  else
    let step1 : ClientState × List DestroyAction :=
      if s.cbs = true ∧ s.extConnection = false then
        ({ s with cbs := false }, [DestroyAction.closeAuthenticator])
      else if s.cbs = false then (s, [DestroyAction.destroySession])
      else (s, [])
    let s2 : ClientState := { step1.1 with hasSession := false }
    let step3 : ClientState × List DestroyAction :=
      if s.extConnection = false then (s2, [DestroyAction.destroyConnection])
      else (s2, [])
    ({ step3.1 with hasConnection := false }, step1.2 ++ step3.2)

/-- SendClient.close (client.py lines 416-426): destroy the message
sender when present, run the base close, clear the pending list. -/
def sendClose (s : ClientState) : ClientState × List DestroyAction :=
  let step1 : ClientState × List DestroyAction :=
    if s.messageSender = true then
      ({ s with messageSender := false }, [DestroyAction.destroySender])
    else (s, [])
  let step2 := amqpClose step1.1
  ({ step2.1 with pendingMessages := [] }, step1.2 ++ step2.2)

/-- ReceiveClient.close (client.py lines 772-779): destroy the message
receiver when present, run the base close, reset the shutdown flag, the
last-activity timestamp and the message-received flag. -/
def receiveClose (s : ClientState) : ClientState × List DestroyAction :=
  let step1 : ClientState × List DestroyAction :=
    if s.messageReceiver = true then
      ({ s with messageReceiver := false }, [DestroyAction.destroyReceiver])
    else (s, [])
  let step2 := amqpClose step1.1
  ({ step2.1 with
      shutdown := false
      lastActivityTimestamp := none
      wasMessageReceived := false }, step1.2 ++ step2.2)

end Uamqp

namespace Uamqp

theorem authStateAfter_retries_le (s : AuthState) (status : CBSAuthStatus) :
    s.retries ≤ (authStateAfter s status).retries := by
  cases status <;> simp only [authStateAfter, handle_token]
  case Error =>
    by_cases h : s.policyRetries ≤ s.retries
    · rw [if_pos h]
    · rw [if_neg h]
      exact Nat.le_succ _
  case RefreshRequired =>
    by_cases h : s.hasCredentials = true
    · rw [if_pos h]
    · rw [if_neg h]
  all_goals exact Nat.le_refl _

theorem authStateAfter_error_policy (s : AuthState) :
    (authStateAfter s .Error).policyRetries = s.policyRetries := by
  simp only [authStateAfter, handle_token]
  by_cases h : s.policyRetries ≤ s.retries
  · rw [if_pos h]
  · rw [if_neg h]

theorem stateAfterErrors_policy (s : AuthState) (k : Nat) :
    (stateAfterErrors s k).policyRetries = s.policyRetries := by
  induction k with
  | zero => rfl
  | succ k ih =>
    simp only [stateAfterErrors]
    rw [authStateAfter_error_policy, ih]

theorem stateAfterErrors_retries (s : AuthState) (k : Nat)
    (h0 : s.retries = 0) (hk : k ≤ s.policyRetries) :
    (stateAfterErrors s k).retries = k := by
  induction k with
  | zero => simpa using h0
  | succ k ih =>
    have hk1 : k ≤ s.policyRetries := Nat.le_of_succ_le hk
    have hr : (stateAfterErrors s k).retries = k := ih hk1
    have hp : (stateAfterErrors s k).policyRetries = s.policyRetries :=
      stateAfterErrors_policy s k
    simp only [stateAfterErrors, authStateAfter, handle_token]
    have hlt : ¬ (stateAfterErrors s k).policyRetries ≤ (stateAfterErrors s k).retries := by
      rw [hr, hp]
      exact Nat.not_le.mpr (Nat.lt_of_lt_of_le (Nat.lt_succ_self k) hk)
    rw [if_neg hlt]
    simp [hr]

/-- Claim C1: the spec says that when the polled CBS status is Failure,
handle_token raises AuthenticationException and does not return normally.
The source (authentication.py lines 231-232 and the async variant, lines
95-96) instead evaluates the expression
errors.AuthenticationException(...) without a raise statement, so the
call discards the exception object and returns (False, False) normally,
contradicting the function docstring.  This theorem evaluates the
embedded code at the failing input: for every authenticator state, a
handle_token call observing Failure returns normally with
timed_out = false and in_progress = false. -/
theorem handle_token_failure_status_returns_normally (s : AuthState) :
    handle_token s .Failure = .ok s false false := rfl

/-- Claim C3: with the retry counter starting at 0 and a policy allowing N
retries, each of the first N handle_token calls observing Error status
increments the counter by exactly one and returns normally with
in_progress = true and timed_out = false, and the call after those N
raises TokenAuthFailure. -/
theorem handle_token_error_retries (N : Nat) (s : AuthState)
    (h0 : s.retries = 0) (hp : s.policyRetries = N) :
    (∀ i, i < N →
      (stateAfterErrors s i).retries = i ∧
      handle_token (stateAfterErrors s i) .Error =
        .ok (stateAfterErrors s (i + 1)) false true) ∧
    handle_token (stateAfterErrors s N) .Error = .raises .TokenAuthFailure := by
  constructor
  · intro i hi
    have hle : i ≤ s.policyRetries := by
      rw [hp]; exact Nat.le_of_lt hi
    have hr : (stateAfterErrors s i).retries = i := stateAfterErrors_retries s i h0 hle
    have hpol : (stateAfterErrors s i).policyRetries = N := by
      rw [stateAfterErrors_policy, hp]
    refine ⟨hr, ?_⟩
    have hne : ¬ (stateAfterErrors s i).policyRetries ≤ (stateAfterErrors s i).retries := by
      rw [hr, hpol]; exact Nat.not_le.mpr hi
    simp only [stateAfterErrors, authStateAfter, handle_token]
    rw [if_neg hne]
  · have hr : (stateAfterErrors s N).retries = N :=
      stateAfterErrors_retries s N h0 (by rw [hp])
    have hpol : (stateAfterErrors s N).policyRetries = N := by
      rw [stateAfterErrors_policy, hp]
    simp only [handle_token]
    rw [if_pos (by omega)]

theorem handle_token_error_retries_witness :
    ((∀ i, i < 2 →
      (stateAfterErrors (SASTokenAuth_init 2 false) i).retries = i ∧
      handle_token (stateAfterErrors (SASTokenAuth_init 2 false) i) .Error =
        .ok (stateAfterErrors (SASTokenAuth_init 2 false) (i + 1)) false true) ∧
    handle_token (stateAfterErrors (SASTokenAuth_init 2 false) 2) .Error =
      .raises .TokenAuthFailure) :=
  handle_token_error_retries 2 (SASTokenAuth_init 2 false) rfl rfl

theorem mapPop_mapSet (k : Nat) (v : Option Nat) (rs : RespMap) :
    mapPop k (mapSet k v rs) = mapPop k rs := by
  induction rs with
  | nil => rfl
  | cons p rest ih =>
    obtain ⟨k1, v1⟩ := p
    by_cases h : k1 = k
    · simp [mapSet, mapPop, h]
    · simp [mapSet, mapPop, h, ih]

theorem mapLookup_mapSet_of_mem (k : Nat) (v w : Option Nat) (rs : RespMap)
    (h : mapLookup k rs = some w) : mapLookup k (mapSet k v rs) = some v := by
  induction rs with
  | nil => simp [mapLookup] at h
  | cons p rest ih =>
    obtain ⟨k1, v1⟩ := p
    by_cases hk : k1 = k
    · simp [mapSet, mapLookup, hk]
    · simp only [mapLookup, if_neg hk] at h
      simp [mapSet, mapLookup, hk, ih h]

theorem executeLoop_cleanup (env : MgmtEnv) (timeout startTime opId : Nat) :
    ∀ (fuel i : Nat) (rs : RespMap) (err : Bool) (v : Option Nat),
      mapLookup opId rs = some v →
      mapLookup opId (mapPop opId rs) = none →
      (∀ r final, executeLoop env timeout startTime opId fuel i rs err = .ok r final →
        mapLookup opId final = none) ∧
      (∀ final, executeLoop env timeout startTime opId fuel i rs err = .timeoutRaised final →
        mapLookup opId final = some none) := by
  intro fuel
  induction fuel with
  | zero =>
    intro i rs err v hin hpop
    exact ⟨fun r final h => by simp [executeLoop] at h,
           fun final h => by simp [executeLoop] at h⟩
  | succ fuel ih =>
    intro i rs err v hin hpop
    by_cases herr : err = true
    · subst herr
      exact ⟨fun r final h => by simp [executeLoop] at h,
             fun final h => by simp [executeLoop] at h⟩
    · have herr' : err = false := by
        cases err
        · rfl
        · exact absurd rfl herr
      subst herr'
      cases hv : v with
      | some r0 =>
        constructor
        · intro r final h
          simp only [executeLoop, if_neg (by simp : ¬ (false = true))] at h
          rw [hin, hv] at h
          simp only [Option.getD_some] at h
          cases h
          exact hpop
        · intro final h
          simp only [executeLoop, if_neg (by simp : ¬ (false = true))] at h
          rw [hin, hv] at h
          simp only [Option.getD_some] at h
          cases h
      | none =>
        subst hv
        by_cases hto : 0 < timeout ∧ timeout ≤ env.time i - startTime
        · constructor
          · intro r final h
            simp only [executeLoop, if_neg (by simp : ¬ (false = true))] at h
            rw [hin] at h
            simp only [Option.getD_some] at h
            rw [if_pos hto] at h
            cases h
          · intro final h
            simp only [executeLoop, if_neg (by simp : ¬ (false = true))] at h
            rw [hin] at h
            simp only [Option.getD_some] at h
            rw [if_pos hto] at h
            cases h
            exact hin
        · have hstep :
              executeLoop env timeout startTime opId (fuel + 1) i rs false =
              executeLoop env timeout startTime opId fuel (i + 1)
                (match env.respond i with
                 | some m => mapSet opId (some m) rs
                 | none => rs) (env.errAt i) := by
            simp only [executeLoop, if_neg (by simp : ¬ (false = true))]
            rw [hin]
            simp only [Option.getD_some]
            rw [if_neg hto]
            rfl
          cases hresp : env.respond i with
          | none =>
            rw [hresp] at hstep
            have := ih (i + 1) rs (env.errAt i) none hin hpop
            exact ⟨fun r final h => this.1 r final (by rw [hstep] at h; exact h),
                   fun final h => this.2 final (by rw [hstep] at h; exact h)⟩
          | some m =>
            rw [hresp] at hstep
            have hin1 : mapLookup opId (mapSet opId (some m) rs) = some (some m) :=
              mapLookup_mapSet_of_mem opId (some m) none rs hin
            have hpop1 : mapLookup opId (mapPop opId (mapSet opId (some m) rs)) = none := by
              rw [mapPop_mapSet]
              exact hpop
            have := ih (i + 1) (mapSet opId (some m) rs) (env.errAt i) (some m) hin1 hpop1
            exact ⟨fun r final h => this.1 r final (by rw [hstep] at h; exact h),
                   fun final h => this.2 final (by rw [hstep] at h; exact h)⟩

/-- Claim C2 counterexample: with timeout = 5 against a management link
that never completes, execute raises TimeoutError while the fresh
operation id 7 is still present in the pending-response map (its None
placeholder is never removed), so the claim that the map entry is removed
on the timeout path is false on the code. -/
theorem mgmt_execute_timeout_leak_counterexample :
    mgmtExecute mgmtSilentEnv [] false 7 5 20 = .timeoutRaised [(7, none)] ∧
    ¬ mapLookup 7 [(7, none)] = none := by
  constructor
  · rfl
  · simp [mapLookup]

/-- Claim C2, amended: for every execute call generating a fresh operation
id, when a response arrives the entry is popped from the pending-response
map and the response returned (the id is then absent from the map); when
timeout > 0 elapses first, the call raises TimeoutError but the entry is
NOT removed: the id is still present in the map, mapped to its None
placeholder. -/
theorem mgmt_execute_response_map_cleanup (env : MgmtEnv) (initMap : RespMap)
    (initErr : Bool) (opId timeout fuel : Nat)
    (hfresh : mapLookup opId initMap = none) :
    (∀ r final, mgmtExecute env initMap initErr opId timeout fuel = .ok r final →
      mapLookup opId final = none) ∧
    (∀ final, mgmtExecute env initMap initErr opId timeout fuel = .timeoutRaised final →
      mapLookup opId final = some none) := by
  have hin : mapLookup opId ((opId, none) :: initMap) = some none := by
    simp [mapLookup]
  have hpop : mapLookup opId (mapPop opId ((opId, none) :: initMap)) = none := by
    simp [mapPop, hfresh]
  exact executeLoop_cleanup env timeout env.startTime opId fuel 0
    ((opId, none) :: initMap) initErr none hin hpop

theorem mgmt_execute_response_map_cleanup_witness :
    mapLookup 7 ([] : RespMap) = none :=
  (mgmt_execute_response_map_cleanup mgmtPromptEnv [] false 7 0 20 rfl).1 42 [] rfl

/-- Claim C9: the retry counter is monotonically non-decreasing across
every sequence of handle_token calls (no outcome resets or decreases it,
including a retry that later reaches Ok status), and only constructing a
new authenticator yields a counter of 0. -/
theorem retry_counter_monotone :
    (∀ (s : AuthState) (statuses : List CBSAuthStatus),
      s.retries ≤ (authStateAfterSeq s statuses).retries) ∧
    (∀ (p : Nat) (c : Bool), (SASTokenAuth_init p c).retries = 0) := by
  constructor
  · intro s statuses
    induction statuses generalizing s with
    | nil => exact Nat.le_refl _
    | cons status rest ih =>
      exact Nat.le_trans (authStateAfter_retries_le s status) (ih (authStateAfter s status))
  · intro p c
    rfl

/-- Claim C5: in the SendClient per-tick run step, a WaitingToBeSent
message older than a positive msg_timeout is failed directly (Timeout
send result, not handed to the Sender), and every other WaitingToBeSent
message becomes WaitingForAck and is handed to send_async with the
remaining budget: msg_timeout minus the elapsed seconds, or 0 when
msg_timeout is 0. -/
theorem send_run_step_timeout_and_dispatch (msgTimeout : ℚ) (currentTime : Nat)
    (m : SendMsg) (h : m.state = .WaitingToBeSent) :
    (0 < msgTimeout ∧ msgTimeout < ((currentTime - m.idleTime : Nat) : ℚ) / 1000 →
      clientRunStep msgTimeout currentTime m =
        ({ m with state := .Failed }, .failTimeout)) ∧
    (0 < msgTimeout ∧ ((currentTime - m.idleTime : Nat) : ℚ) / 1000 ≤ msgTimeout →
      clientRunStep msgTimeout currentTime m =
        ({ m with state := .WaitingForAck },
          .send (msgTimeout - ((currentTime - m.idleTime : Nat) : ℚ) / 1000))) ∧
    (msgTimeout = 0 →
      clientRunStep msgTimeout currentTime m =
        ({ m with state := .WaitingForAck }, .send 0)) := by
  have h1 : ¬ (m.state = .Complete ∨ m.state = .Failed) := by
    rw [h]
    simp
  refine ⟨?_, ?_, ?_⟩ <;> intro hc
  · simp only [clientRunStep, if_neg h1, if_pos h, if_pos hc]
    rfl
  · have hne : ¬ (0 < msgTimeout ∧
        msgTimeout < ((currentTime - m.idleTime : Nat) : ℚ) / 1000) := by
      intro hcon
      exact absurd hcon.2 (not_lt.mpr hc.2)
    simp only [clientRunStep, if_neg h1, if_pos h, if_neg hne, if_pos hc.1]
  · subst hc
    have hne : ¬ ((0 : ℚ) < 0 ∧
        (0 : ℚ) < ((currentTime - m.idleTime : Nat) : ℚ) / 1000) := by
      intro hcon
      exact absurd hcon.1 (lt_irrefl 0)
    simp only [clientRunStep, if_neg h1, if_pos h, if_neg hne,
      if_neg (lt_irrefl (0 : ℚ))]

theorem send_run_step_timeout_and_dispatch_witness :
    clientRunStep 1 2000 { state := .WaitingToBeSent, idleTime := 0 } =
      ({ state := .Failed, idleTime := 0 }, .failTimeout) :=
  (send_run_step_timeout_and_dispatch 1 2000
    { state := .WaitingToBeSent, idleTime := 0 } rfl).1 (by norm_num)

theorem runPending_mem (msgTimeout : ℚ) (now : Nat) (id0 : Nat) :
    ∀ (p : List Nat) (store : List SendMsg),
      id0 ∈ (runPending msgTimeout now p store).1 → id0 ∈ p := by
  intro p
  induction p with
  | nil =>
    intro store hmem
    simp [runPending] at hmem
  | cons id rest ih =>
    intro store hmem
    simp only [runPending] at hmem
    cases hget : store.get? id with
    | none =>
      rw [hget] at hmem
      simp only [List.mem_cons] at hmem
      rcases hmem with h | h
      · exact h ▸ List.mem_cons_self id rest
      · exact List.mem_cons_of_mem id (ih store h)
    | some m =>
      rw [hget] at hmem
      dsimp only at hmem
      by_cases hterm : m.state = .Complete ∨ m.state = .Failed
      · rw [if_pos hterm] at hmem
        exact List.mem_cons_of_mem id (ih store hmem)
      · rw [if_neg hterm] at hmem
        by_cases hw : m.state = .WaitingToBeSent
        · rw [if_pos hw] at hmem
          simp only [List.mem_cons] at hmem
          rcases hmem with h | h
          · exact h ▸ List.mem_cons_self id rest
          · exact List.mem_cons_of_mem id (ih _ h)
        · rw [if_neg hw] at hmem
          simp only [List.mem_cons] at hmem
          rcases hmem with h | h
          · exact h ▸ List.mem_cons_self id rest
          · exact List.mem_cons_of_mem id (ih store h)

theorem runPending_terminal_persist (msgTimeout : ℚ) (now : Nat) (id0 : Nat)
    (m0 : SendMsg) (hterm0 : m0.state = .Complete ∨ m0.state = .Failed) :
    ∀ (p : List Nat) (store : List SendMsg),
      store.get? id0 = some m0 →
      (runPending msgTimeout now p store).2.get? id0 = some m0 := by
  intro p
  induction p with
  | nil =>
    intro store hst
    simpa [runPending] using hst
  | cons id rest ih =>
    intro store hst
    simp only [runPending]
    cases hget : store.get? id with
    | none => exact ih store hst
    | some m =>
      dsimp only
      by_cases hterm : m.state = .Complete ∨ m.state = .Failed
      · rw [if_pos hterm]
        exact ih store hst
      · rw [if_neg hterm]
        by_cases hw : m.state = .WaitingToBeSent
        · rw [if_pos hw]
          have hne : id ≠ id0 := by
            intro heq
            subst heq
            rw [hget] at hst
            cases hst
            exact hterm hterm0
          exact ih _ (by rw [List.get?_set_ne _ _ hne]; exact hst)
        · rw [if_neg hw]
          exact ih store hst

theorem runPending_removed_terminal (msgTimeout : ℚ) (now : Nat) (id0 : Nat) :
    ∀ (p : List Nat) (store : List SendMsg),
      id0 ∈ p → id0 ∉ (runPending msgTimeout now p store).1 →
      ∃ m0, (runPending msgTimeout now p store).2.get? id0 = some m0 ∧
        (m0.state = .Complete ∨ m0.state = .Failed) := by
  intro p
  induction p with
  | nil =>
    intro store hmem
    simp at hmem
  | cons id rest ih =>
    intro store hmem hnot
    simp only [runPending] at hnot ⊢
    cases hget : store.get? id with
    | none =>
      rw [hget] at hnot
      have hid : id0 ≠ id := by
        intro heq
        exact hnot (heq ▸ List.mem_cons_self _ _)
      have hmem' : id0 ∈ rest := by
        rcases List.mem_cons.mp hmem with h | h
        · exact absurd h hid
        · exact h
      exact ih store hmem' (fun hcon => hnot (List.mem_cons_of_mem _ hcon))
    | some m =>
      rw [hget] at hnot
      dsimp only at hnot ⊢
      by_cases hterm : m.state = .Complete ∨ m.state = .Failed
      · rw [if_pos hterm] at hnot ⊢
        by_cases hid : id0 = id
        · subst hid
          exact ⟨m, runPending_terminal_persist msgTimeout now id0 m hterm rest store hget,
            hterm⟩
        · have hmem' : id0 ∈ rest := by
            rcases List.mem_cons.mp hmem with h | h
            · exact absurd h hid
            · exact h
          exact ih store hmem' hnot
      · rw [if_neg hterm] at hnot ⊢
        by_cases hw : m.state = .WaitingToBeSent
        · rw [if_pos hw] at hnot ⊢
          have hid : id0 ≠ id := by
            intro heq
            exact hnot (heq ▸ List.mem_cons_self _ _)
          have hmem' : id0 ∈ rest := by
            rcases List.mem_cons.mp hmem with h | h
            · exact absurd h hid
            · exact h
          exact ih _ hmem' (fun hcon => hnot (List.mem_cons_of_mem _ hcon))
        · rw [if_neg hw] at hnot ⊢
          have hid : id0 ≠ id := by
            intro heq
            exact hnot (heq ▸ List.mem_cons_self _ _)
          have hmem' : id0 ∈ rest := by
            rcases List.mem_cons.mp hmem with h | h
            · exact absurd h hid
            · exact h
          exact ih store hmem' (fun hcon => hnot (List.mem_cons_of_mem _ hcon))

theorem applyAcksFrom_terminal_persist (ack : Nat → Option MessageSendResult)
    (m0 : SendMsg) (hterm0 : m0.state = .Complete ∨ m0.state = .Failed) :
    ∀ (store : List SendMsg) (i j : Nat),
      store.get? j = some m0 →
      (applyAcksFrom ack i store).get? j = some m0 := by
  intro store
  induction store with
  | nil =>
    intro i j hst
    simp [List.get?] at hst
  | cons m rest ih =>
    intro i j hst
    cases j with
    | zero =>
      simp only [List.get?] at hst
      cases hst
      have hnw : ¬ m0.state = .WaitingForAck := by
        rcases hterm0 with h | h <;> rw [h] <;> simp
      simp only [applyAcksFrom, List.get?, if_neg hnw]
    | succ j =>
      simp only [List.get?] at hst
      simp only [applyAcksFrom, List.get?]
      exact ih (i + 1) j hst

theorem sendWait_terminal (env : SendEnv) (msgTimeout : ℚ) (pending0 : List Nat) :
    ∀ (fuel t : Nat) (pending : List Nat) (store : List SendMsg),
      (∀ id, id ∈ pending0 → id ∈ pending ∨
        ∃ m, store.get? id = some m ∧ (m.state = .Complete ∨ m.state = .Failed)) →
      ∀ final, sendWait env msgTimeout fuel t pending store = some final →
        ∀ id, id ∈ pending0 →
          ∃ m, final.get? id = some m ∧ (m.state = .Complete ∨ m.state = .Failed) := by
  intro fuel
  induction fuel with
  | zero =>
    intro t pending store hinv final hrun id hid
    by_cases hp : pending = []
    · rw [sendWait, if_pos hp] at hrun
      cases hrun
      rcases hinv id hid with h | h
      · rw [hp] at h
        simp at h
      · exact h
    · rw [sendWait, if_neg hp] at hrun
      cases hrun
  | succ fuel ih =>
    intro t pending store hinv final hrun id hid
    by_cases hp : pending = []
    · rw [sendWait, if_pos hp] at hrun
      cases hrun
      rcases hinv id hid with h | h
      · rw [hp] at h
        simp at h
      · exact h
    · rw [sendWait, if_neg hp] at hrun
      refine ih (t + 1) _ _ ?_ final hrun id hid
      intro id1 hid1
      rcases hinv id1 hid1 with hmem | ⟨m, hget, hterm⟩
      · by_cases hkept :
            id1 ∈ (runPending msgTimeout (env.time t) pending store).1
        · exact Or.inl hkept
        · obtain ⟨m0, hget0, hterm0⟩ :=
            runPending_removed_terminal msgTimeout (env.time t) id1 pending store
              hmem hkept
          exact Or.inr ⟨m0,
            applyAcksFrom_terminal_persist (env.ack t) m0 hterm0 _ 0 id1 hget0, hterm0⟩
      · have hget1 :
            (runPending msgTimeout (env.time t) pending store).2.get? id1 = some m :=
          runPending_terminal_persist msgTimeout (env.time t) id1 m hterm pending
            store hget
        exact Or.inr ⟨m,
          applyAcksFrom_terminal_persist (env.ack t) m hterm _ 0 id1 hget1, hterm⟩

/-- Claim C7: for every sequence of queue_message calls followed by one
send_all_messages call that returns, the returned list of message states
has one entry per queued message, and every entry is Complete or
Failed. -/
theorem send_all_messages_results (env : SendEnv) (msgTimeout : ℚ) (fuel : Nat)
    (times : List Nat) (results : List MessageState)
    (h : send_all_messages env msgTimeout fuel
      (queueMessages times).1 (queueMessages times).2 = some results) :
    results.length = times.length ∧
    ∀ r ∈ results, r = .Complete ∨ r = .Failed := by
  simp only [send_all_messages] at h
  cases hrun : sendWait env msgTimeout fuel 0 (queueMessages times).1
      (queueMessages times).2 with
  | none =>
    rw [hrun] at h
    cases h
  | some finalStore =>
    rw [hrun] at h
    cases h
    constructor
    · simp [queueMessages]
    · intro r hr
      obtain ⟨id, hid, hrid⟩ := List.mem_map.mp hr
      obtain ⟨m, hget, hterm⟩ :=
        sendWait_terminal env msgTimeout (queueMessages times).1 fuel 0
          (queueMessages times).1 (queueMessages times).2
          (fun id1 hid1 => Or.inl hid1) finalStore hrun id hid
      rw [← hrid, hget]
      simpa using hterm

theorem send_all_messages_results_witness :
    ([MessageState.Complete, MessageState.Complete] : List MessageState).length =
      ([0, 0] : List Nat).length ∧
    ∀ r ∈ ([MessageState.Complete, MessageState.Complete] : List MessageState),
      r = .Complete ∨ r = .Failed :=
  send_all_messages_results promptAckEnv 0 3 [0, 0] [.Complete, .Complete] (by decide)

/-- Claim C10: when the shutdown flag is set, do_work returns False
without raising, without ticking the connection, and without invoking the
role-specific run step, because the shutdown check precedes the
TimeoutError raise; this holds even when handle_token reported
timed_out = true in the same call. -/
theorem do_work_shutdown_returns_false (inp : DoWorkInput)
    (h : inp.shutdown = true) :
    do_work inp = .ok false 0 false := by
  simp [do_work, h]

theorem do_work_shutdown_returns_false_witness :
    do_work { hasCbs := true, authTimedOut := true, authInProgress := false,
              shutdown := true, clientReady := false, clientRunResult := true } =
      .ok false 0 false :=
  do_work_shutdown_returns_false
    { hasCbs := true, authTimedOut := true, authInProgress := false,
      shutdown := true, clientReady := false, clientRunResult := true } rfl

theorem amqpClose_fields (s : ClientState) :
    (amqpClose s).1.hasSession = false ∧
    (amqpClose s).1.messageSender = s.messageSender ∧
    (amqpClose s).1.messageReceiver = s.messageReceiver ∧
    (amqpClose s).1.pendingMessages = s.pendingMessages ∧
    (amqpClose s).1.shutdown = s.shutdown ∧
    (amqpClose s).1.lastActivityTimestamp = s.lastActivityTimestamp ∧
    (amqpClose s).1.wasMessageReceived = s.wasMessageReceived := by
  by_cases h : s.hasSession = false
  · simp [amqpClose, h]
  · simp only [amqpClose, if_neg h]
    split_ifs <;> simp

theorem amqpClose_noSession (s : ClientState) (h : s.hasSession = false) :
    amqpClose s = (s, []) := by
  simp [amqpClose, h]

theorem clientState_eta_pending (u : ClientState) (h : u.pendingMessages = []) :
    ({ u with pendingMessages := ([] : List Nat) } : ClientState) = u := by
  cases u
  simp_all

theorem clientState_eta_recv (u : ClientState) (h1 : u.shutdown = false)
    (h2 : u.lastActivityTimestamp = none) (h3 : u.wasMessageReceived = false) :
    ({ u with
        shutdown := false
        lastActivityTimestamp := none
        wasMessageReceived := false } : ClientState) = u := by
  cases u
  simp_all

theorem sendClose_fields (s : ClientState) :
    (sendClose s).1.messageSender = false ∧
    (sendClose s).1.hasSession = false ∧
    (sendClose s).1.pendingMessages = [] := by
  by_cases h : s.messageSender = true
  · simp only [sendClose, if_pos h]
    refine ⟨?_, ?_, trivial⟩
    · rw [show ∀ u : ClientState,
        ({ u with pendingMessages := ([] : List Nat) } : ClientState).messageSender =
          u.messageSender from fun u => rfl]
      rw [(amqpClose_fields _).2.1]
    · exact (amqpClose_fields _).1
  · simp only [sendClose, if_neg h]
    refine ⟨?_, ?_, trivial⟩
    · rw [show ∀ u : ClientState,
        ({ u with pendingMessages := ([] : List Nat) } : ClientState).messageSender =
          u.messageSender from fun u => rfl]
      rw [(amqpClose_fields _).2.1]
      simpa using h
    · exact (amqpClose_fields _).1

theorem receiveClose_fields (s : ClientState) :
    (receiveClose s).1.messageReceiver = false ∧
    (receiveClose s).1.hasSession = false ∧
    (receiveClose s).1.shutdown = false ∧
    (receiveClose s).1.lastActivityTimestamp = none ∧
    (receiveClose s).1.wasMessageReceived = false := by
  by_cases h : s.messageReceiver = true
  · simp only [receiveClose, if_pos h]
    refine ⟨?_, (amqpClose_fields _).1, trivial, trivial, trivial⟩
    rw [(amqpClose_fields _).2.2.1]
  · simp only [receiveClose, if_neg h]
    refine ⟨?_, (amqpClose_fields _).1, trivial, trivial, trivial⟩
    rw [(amqpClose_fields _).2.2.1]
    simpa using h

theorem sendClose_noSession (u : ClientState) (h1 : u.messageSender = false)
    (h2 : u.hasSession = false) (h3 : u.pendingMessages = []) :
    sendClose u = (u, []) := by
  have h1' : ¬ u.messageSender = true := by
    rw [h1]
    exact Bool.false_ne_true
  simp only [sendClose, if_neg h1']
  rw [amqpClose_noSession u h2]
  simp only [List.nil_append]
  rw [clientState_eta_pending u h3]

theorem receiveClose_noSession (u : ClientState) (h1 : u.messageReceiver = false)
    (h2 : u.hasSession = false) (h3 : u.shutdown = false)
    (h4 : u.lastActivityTimestamp = none) (h5 : u.wasMessageReceived = false) :
    receiveClose u = (u, []) := by
  have h1' : ¬ u.messageReceiver = true := by
    rw [h1]
    exact Bool.false_ne_true
  simp only [receiveClose, if_neg h1']
  rw [amqpClose_noSession u h2]
  simp only [List.nil_append]
  rw [clientState_eta_recv u h3 h4 h5]

/-- Claim C8: calling close() a second time on an already-closed client is
a no-op for AMQPClient, SendClient and ReceiveClient: for every client
state, re-closing the state produced by a first close raises nothing (the
embedding is total), performs no destroy operation on the Connection, the
Session, the CBS authenticator or the links, and leaves the state
unchanged. -/
theorem client_close_idempotent (s : ClientState) :
    amqpClose (amqpClose s).1 = ((amqpClose s).1, []) ∧
    sendClose (sendClose s).1 = ((sendClose s).1, []) ∧
    receiveClose (receiveClose s).1 = ((receiveClose s).1, []) := by
  obtain ⟨h1, h2, h3⟩ := sendClose_fields s
  obtain ⟨g1, g2, g3, g4, g5⟩ := receiveClose_fields s
  exact ⟨amqpClose_noSession _ (amqpClose_fields s).1,
         sendClose_noSession _ h1 h2 h3,
         receiveClose_noSession _ g1 g2 g3 g4 g5⟩

/-- Claim C4 counterexample: a call with max_batch_size = 0 is not
rejected (0 is not greater than the prefetch) but, because 0 is falsy in
the source, the prefetch is silently used as the batch size: with
prefetch 1 and one already-queued message the call returns a batch of
length 1 > 0, so the claim that the returned list contains at most
N = 0 messages is false on the code. -/
theorem receive_batch_zero_size_counterexample :
    receive_message_batch silentRecvEnv 1 [5] 0 0 10 = .batch [5] 0 ∧
    ¬ ([5] : List Nat).length ≤ 0 := by
  constructor
  · rfl
  · decide

theorem drainLoop_length_le (maxB : Nat) :
    ∀ (q batch : List Nat), batch.length ≤ maxB →
      (drainLoop maxB batch q).1.length ≤ maxB := by
  intro q
  induction q with
  | nil =>
    intro batch h
    simpa [drainLoop] using h
  | cons m rest ih =>
    intro batch h
    simp only [drainLoop]
    by_cases hlt : batch.length < maxB
    · rw [if_pos hlt]
      exact ih (batch ++ [m]) (by simpa using Nat.succ_le_of_lt hlt)
    · rw [if_neg hlt]
      exact h

theorem recvOuterLoop_length_le (env : RecvEnv) (maxB deadline : Nat) :
    ∀ (fuel i : Nat) (batch q : List Nat) (receiving expired : Bool),
      batch.length ≤ maxB →
      ∀ b t, recvOuterLoop env maxB deadline fuel i batch q receiving expired =
        some (b, t) → b.length ≤ maxB := by
  intro fuel
  induction fuel with
  | zero =>
    intro i batch q r e h b t hrun
    simp [recvOuterLoop] at hrun
  | succ fuel ih =>
    intro i batch q r e h b t hrun
    simp only [recvOuterLoop] at hrun
    by_cases hcond : r = true ∧ e = false ∧ batch.length < maxB
    · rw [if_pos hcond] at hrun
      cases hinner : recvInnerLoop env maxB deadline (fuel + 1) i q r with
      | none =>
        rw [hinner] at hrun
        cases hrun
      | some res =>
        obtain ⟨q1, i1, rcv1, exp1⟩ := res
        rw [hinner] at hrun
        dsimp only at hrun
        exact ih i1 _ _ rcv1 exp1 (drainLoop_length_le maxB q1 batch h) b t hrun
    · rw [if_neg hcond] at hrun
      cases hrun
      exact h

/-- Claim C4, amended: for every receive_message_batch call with a
positive max_batch_size N, if N is greater than the configured prefetch a
ValueError is raised before any do_work tick; otherwise the returned
batch holds at most N messages.  (A call with max_batch_size = 0 is
treated by the source as an unset argument: the prefetch is used as the
batch size.) -/
theorem receive_batch_validation_and_bound (env : RecvEnv) (prefetch : Nat)
    (queue0 : List Nat) (N timeout fuel : Nat) (hN : 1 ≤ N) :
    (prefetch < N →
      receive_message_batch env prefetch queue0 N timeout fuel = .valueError) ∧
    (∀ b t, receive_message_batch env prefetch queue0 N timeout fuel = .batch b t →
      b.length ≤ N) := by
  have hne : ¬ N = 0 := by omega
  constructor
  · intro hlt
    simp [receive_message_batch, hne, hlt]
  · intro b t hrun
    simp only [receive_message_batch, if_neg hne] at hrun
    by_cases hp : prefetch < N
    · rw [if_pos hp] at hrun
      cases hrun
    · rw [if_neg hp] at hrun
      by_cases hfull : N ≤ (drainLoop N [] queue0).1.length
      · rw [if_pos hfull] at hrun
        cases hrun
        exact drainLoop_length_le N queue0 [] (Nat.zero_le N)
      · rw [if_neg hfull] at hrun
        cases houter : recvOuterLoop env N
            (if timeout = 0 then 0 else env.startTime + timeout) fuel 0
            (drainLoop N [] queue0).1 (drainLoop N [] queue0).2 true false with
        | none =>
          rw [houter] at hrun
          cases hrun
        | some r =>
          rw [houter] at hrun
          cases hrun
          exact recvOuterLoop_length_le env N _ fuel 0 _ _ true false
            (drainLoop_length_le N queue0 [] (Nat.zero_le N)) r.1 r.2
            (by rw [houter])

theorem receive_batch_validation_and_bound_witness :
    receive_message_batch silentRecvEnv 0 [] 1 0 5 = .valueError :=
  (receive_batch_validation_and_bound silentRecvEnv 0 [] 1 0 5 (by decide)).1
    (by decide)

theorem drainLoop_all (maxB : Nat) :
    ∀ (q batch : List Nat), batch.length + q.length ≤ maxB →
      drainLoop maxB batch q = (batch ++ q, []) := by
  intro q
  induction q with
  | nil =>
    intro batch h
    simp [drainLoop]
  | cons m rest ih =>
    intro batch h
    simp only [drainLoop]
    rw [if_pos (by simp only [List.length_cons] at h; omega)]
    rw [ih (batch ++ [m]) (by simp only [List.length_append, List.length_cons,
      List.length_nil] at h ⊢; omega)]
    simp

theorem recvInner_stall (env : RecvEnv) (maxB : Nat) :
    ∀ (k i : Nat) (q : List Nat),
      (∀ j, j < k → env.msgs (i + j) ≠ []) →
      env.msgs (i + k) = [] →
      (∀ j, j < k → env.stillOpen (i + j) = true) →
      q.length + (deliveredBursts env i k).length < maxB →
      q ++ deliveredBursts env i k ≠ [] →
      ∀ fuel, k < fuel →
        recvInnerLoop env maxB 0 fuel i q true =
          some (q ++ deliveredBursts env i k, i + k + 1,
            env.stillOpen (i + k), true) := by
  intro k
  induction k with
  | zero =>
    intro i q hne hk hopen hlen hq fuel hfuel
    rw [Nat.add_zero] at hk
    simp only [deliveredBursts, List.append_nil, List.length_nil,
      Nat.add_zero] at hlen hq ⊢
    cases fuel with
    | zero => exact absurd hfuel (by omega)
    | succ fuel =>
      simp only [recvInnerLoop]
      rw [if_pos ⟨by trivial, hlen⟩, if_neg (by simp), hk]
      simp only [List.append_nil, List.length_nil]
      rw [if_pos ⟨List.length_pos.mpr hq, by trivial⟩]
  | succ k ih =>
    intro i q hne hk hopen hlen hq fuel hfuel
    cases fuel with
    | zero => exact absurd hfuel (by omega)
    | succ fuel =>
      have hlen0 : q.length < maxB := by
        simp only [deliveredBursts, List.length_append] at hlen
        omega
      have hm0 : env.msgs i ≠ [] := by
        have h0 := hne 0 (by omega)
        rwa [Nat.add_zero] at h0
      have hop0 : env.stillOpen i = true := by
        have h0 := hopen 0 (by omega)
        rwa [Nat.add_zero] at h0
      simp only [recvInnerLoop]
      rw [if_pos ⟨by trivial, hlen0⟩, if_neg (by simp)]
      rw [if_neg (by
        intro hcon
        exact hm0 (List.length_eq_zero.mp hcon.2))]
      rw [hop0]
      have hrec := ih (i + 1) (q ++ env.msgs i)
        (fun j hj => by
          have hz := hne (j + 1) (by omega)
          rwa [show i + (j + 1) = i + 1 + j from by omega] at hz)
        (by rwa [show i + 1 + k = i + (k + 1) from by omega])
        (fun j hj => by
          have hz := hopen (j + 1) (by omega)
          rwa [show i + (j + 1) = i + 1 + j from by omega] at hz)
        (by
          simp only [deliveredBursts, List.length_append] at hlen ⊢
          omega)
        (by
          intro hcon
          rcases List.append_eq_nil.mp hcon with ⟨h1, _⟩
          rcases List.append_eq_nil.mp h1 with ⟨_, h2⟩
          exact hm0 h2)
        fuel (by omega)
      rw [hrec, show i + 1 + k = i + (k + 1) from by omega]
      simp [deliveredBursts, List.append_assoc]

theorem recvBatch_stall (env : RecvEnv) (prefetch N k fuel : Nat)
    (hk : 1 ≤ k)
    (hbursts : ∀ j, j < k → env.msgs j ≠ [])
    (hstall : env.msgs k = [])
    (hopen : ∀ j, j < k → env.stillOpen j = true)
    (htot : (deliveredBursts env 0 k).length < N)
    (hpre : N ≤ prefetch)
    (hfuel : k + 2 ≤ fuel) :
    receive_message_batch env prefetch [] N 0 fuel =
      .batch (deliveredBursts env 0 k) (k + 1) := by
  have hd : deliveredBursts env 0 k ≠ [] := by
    cases k with
    | zero => exact absurd hk (by omega)
    | succ k2 =>
      simp only [deliveredBursts]
      intro hcon
      rcases List.append_eq_nil.mp hcon with ⟨h1, _⟩
      exact hbursts 0 (by omega) h1
  have hdpos : 0 < (deliveredBursts env 0 k).length := List.length_pos.mpr hd
  have hN0 : ¬ N = 0 := by omega
  obtain ⟨F, rfl⟩ : ∃ F, fuel = F + 1 := ⟨fuel - 1, by omega⟩
  simp only [receive_message_batch, if_neg hN0]
  rw [if_neg (by omega : ¬ prefetch < N)]
  simp only [if_true, drainLoop, List.length_nil]
  rw [if_neg (by omega : ¬ N ≤ 0)]
  simp only [recvOuterLoop]
  rw [if_pos ⟨by trivial, by trivial,
    by simpa using Nat.lt_of_lt_of_le hdpos (Nat.le_of_lt htot)⟩]
  rw [recvInner_stall env N k 0 []
    (fun j hj => by rw [Nat.zero_add]; exact hbursts j hj)
    (by rwa [Nat.zero_add])
    (fun j hj => by rw [Nat.zero_add]; exact hopen j hj)
    (by simpa using htot)
    (by simpa using hd)
    (F + 1) (by omega)]
  dsimp only
  rw [show ([] : List Nat) ++ deliveredBursts env 0 k = deliveredBursts env 0 k
    from List.nil_append _]
  rw [drainLoop_all N (deliveredBursts env 0 k) [] (by simpa using Nat.le_of_lt htot)]
  dsimp only
  obtain ⟨F2, rfl⟩ : ∃ F2, F = F2 + 1 := ⟨F - 1, by omega⟩
  simp only [recvOuterLoop]
  rw [if_neg (by simp)]
  simp

theorem recvInner_deadline (env : RecvEnv) (maxB T : Nat)
    (hmsgs : ∀ j, env.msgs j = []) (hopen : ∀ j, env.stillOpen j = true)
    (htime : ∀ j, env.time j = env.startTime + j + 1)
    (hT : 1 ≤ T) (hmax : 1 ≤ maxB) :
    ∀ (k i : Nat), i + k = T → ∀ fuel, k < fuel →
      recvInnerLoop env maxB (env.startTime + T) fuel i [] true =
        some ([], T, true, true) := by
  intro k
  induction k with
  | zero =>
    intro i hi fuel hfuel
    have hiT : i = T := by omega
    subst hiT
    cases fuel with
    | zero => exact absurd hfuel (by omega)
    | succ fuel =>
      simp only [recvInnerLoop]
      rw [if_pos ⟨by trivial, by simpa using hmax⟩]
      rw [if_pos ⟨by omega, by rw [htime i]; omega⟩]
  | succ k ih =>
    intro i hi fuel hfuel
    cases fuel with
    | zero => exact absurd hfuel (by omega)
    | succ fuel =>
      simp only [recvInnerLoop]
      rw [if_pos ⟨by trivial, by simpa using hmax⟩]
      rw [if_neg (by rw [htime i]; omega)]
      rw [hmsgs i, hopen i]
      simp only [List.append_nil, List.length_nil]
      rw [if_neg (by simp)]
      exact ih (i + 1) (by omega) fuel (by omega)

theorem recvBatch_deadline (env : RecvEnv) (prefetch N T fuel : Nat)
    (hmsgs : ∀ j, env.msgs j = []) (hopen : ∀ j, env.stillOpen j = true)
    (htime : ∀ j, env.time j = env.startTime + j + 1)
    (hT : 1 ≤ T) (hN : 1 ≤ N) (hpre : N ≤ prefetch) (hfuel : T + 2 ≤ fuel) :
    receive_message_batch env prefetch [] N T fuel = .batch [] T := by
  have hN0 : ¬ N = 0 := by omega
  obtain ⟨F, rfl⟩ : ∃ F, fuel = F + 1 := ⟨fuel - 1, by omega⟩
  simp only [receive_message_batch, if_neg hN0]
  rw [if_neg (by omega : ¬ prefetch < N)]
  rw [if_neg (by omega : ¬ T = 0)]
  simp only [drainLoop, List.length_nil]
  rw [if_neg (by omega : ¬ N ≤ 0)]
  simp only [recvOuterLoop]
  rw [if_pos ⟨by trivial, by trivial,
    by simpa using Nat.lt_of_lt_of_le Nat.zero_lt_one hN⟩]
  rw [recvInner_deadline env N T hmsgs hopen htime hT hN
    T 0 (Nat.zero_add T) (F + 1) (by omega)]
  dsimp only
  rw [show drainLoop N [] [] = (([] : List Nat), ([] : List Nat)) from rfl]
  dsimp only
  obtain ⟨F2, rfl⟩ : ∃ F2, F = F2 + 1 := ⟨F - 1, by omega⟩
  simp only [recvOuterLoop]
  rw [if_neg (by simp)]

theorem recvInner_noFuel (env : RecvEnv) (maxB : Nat) (hmax : 1 ≤ maxB)
    (hmsgs : ∀ j, env.msgs j = []) (hopen : ∀ j, env.stillOpen j = true) :
    ∀ (fuel i : Nat), recvInnerLoop env maxB 0 fuel i [] true = none := by
  intro fuel
  induction fuel with
  | zero =>
    intro i
    rfl
  | succ fuel ih =>
    intro i
    simp only [recvInnerLoop]
    rw [if_pos ⟨by trivial, by simpa using hmax⟩]
    rw [if_neg (by simp)]
    rw [hmsgs i, hopen i]
    simp only [List.append_nil]
    rw [if_neg (by simp)]
    exact ih (i + 1)

theorem recvBatch_noDeadline (env : RecvEnv) (prefetch N fuel : Nat)
    (hmsgs : ∀ j, env.msgs j = []) (hopen : ∀ j, env.stillOpen j = true)
    (hN : 1 ≤ N) (hpre : N ≤ prefetch) :
    receive_message_batch env prefetch [] N 0 fuel = .noFuel := by
  have hN0 : ¬ N = 0 := by omega
  simp only [receive_message_batch, if_neg hN0]
  rw [if_neg (by omega : ¬ prefetch < N)]
  simp only [if_true, drainLoop, List.length_nil]
  rw [if_neg (by omega : ¬ N ≤ 0)]
  cases fuel with
  | zero => rfl
  | succ F =>
    simp only [recvOuterLoop]
    rw [if_pos ⟨by trivial, by trivial,
      by simpa using Nat.lt_of_lt_of_le Nat.zero_lt_one hN⟩]
    rw [recvInner_noFuel env N hN hmsgs hopen (F + 1) 0]

/-- Claim C6: during the blocking loop of receive_message_batch, (first
conjunct) if a do_work tick adds zero new messages to the internal queue
while that queue already holds at least one message, the call stops
ticking right there and returns the partial batch: with an empty initial
queue, bursts arriving on ticks 0..k-1, nothing on tick k and no
deadline, exactly k+1 ticks run and the partial batch of all delivered
messages is returned; (second conjunct) the deadline is computed once at
call start as now + timeout: with no messages ever arriving and the clock
advancing one millisecond per iteration, the call returns the empty batch
after exactly timeout ticks; (third conjunct) timeout = 0 means no
deadline: with no messages ever arriving the loop never stops on its own
(every fuel bound is exhausted). -/
theorem receive_batch_stall_and_deadline :
    (∀ (env : RecvEnv) (prefetch N k fuel : Nat),
      1 ≤ k →
      (∀ j, j < k → env.msgs j ≠ []) →
      env.msgs k = [] →
      (∀ j, j < k → env.stillOpen j = true) →
      (deliveredBursts env 0 k).length < N →
      N ≤ prefetch →
      k + 2 ≤ fuel →
      receive_message_batch env prefetch [] N 0 fuel =
        .batch (deliveredBursts env 0 k) (k + 1)) ∧
    (∀ (env : RecvEnv) (prefetch N T fuel : Nat),
      (∀ j, env.msgs j = []) →
      (∀ j, env.stillOpen j = true) →
      (∀ j, env.time j = env.startTime + j + 1) →
      1 ≤ T → 1 ≤ N → N ≤ prefetch → T + 2 ≤ fuel →
      receive_message_batch env prefetch [] N T fuel = .batch [] T) ∧
    (∀ (env : RecvEnv) (prefetch N fuel : Nat),
      (∀ j, env.msgs j = []) →
      (∀ j, env.stillOpen j = true) →
      1 ≤ N → N ≤ prefetch →
      receive_message_batch env prefetch [] N 0 fuel = .noFuel) :=
  ⟨fun env prefetch N k fuel h1 h2 h3 h4 h5 h6 h7 =>
      recvBatch_stall env prefetch N k fuel h1 h2 h3 h4 h5 h6 h7,
   fun env prefetch N T fuel h1 h2 h3 h4 h5 h6 h7 =>
      recvBatch_deadline env prefetch N T fuel h1 h2 h3 h4 h5 h6 h7,
   fun env prefetch N fuel h1 h2 h3 h4 =>
      recvBatch_noDeadline env prefetch N fuel h1 h2 h3 h4⟩

theorem receive_batch_stall_and_deadline_witness :
    receive_message_batch threeThenStallEnv 10 [] 10 0 4 = .batch [1, 2, 3] 2 ∧
    receive_message_batch silentRecvEnv 10 [] 10 3 6 = .batch [] 3 ∧
    receive_message_batch silentRecvEnv 10 [] 10 0 7 = .noFuel := by
  refine ⟨?_, ?_, ?_⟩
  · exact receive_batch_stall_and_deadline.1 threeThenStallEnv 10 10 1 4
      (by decide) (by decide) rfl (by decide) (by decide) (by decide) (by decide)
  · exact receive_batch_stall_and_deadline.2.1 silentRecvEnv 10 10 3 6
      (fun j => rfl) (fun j => rfl) (fun j => by simp [silentRecvEnv])
      (by decide) (by decide) (by decide) (by decide)
  · exact receive_batch_stall_and_deadline.2.2 silentRecvEnv 10 10 7
      (fun j => rfl) (fun j => rfl) (by decide) (by decide)

end Uamqp
